import Mathlib

/-!
Verification development for the `boopy` polygon-set engine
(`src/boopy/boopy.cpp`).

The C++ source is a thin `PolyGroup` container around a
`std::vector<boost::polygon::polygon_data<int>>`:

* `addPolyData` reads `⌊n/2⌋` integer pairs from a flat coordinate
  vector and appends one polygon (no validation, a trailing odd
  coordinate is never read);
* `getPolyCount`, `getPoly`, `clear` are direct container accesses
  (`getPoly` returns an empty vector when the index is out of range);
* `area`, `empty`, `difference`, `intersection`, `merge`, `assign`,
  `exor`, `trapezoids`, `resize` delegate to the boost.polygon engine,
  whose sources are not part of this repository.

The container level is embedded directly from the source.  The
boost-delegated operations are modelled from the spec: a polygon set
denotes a region of the plane via the nonzero winding fill rule, the
boolean operations act pointwise on the denoted regions, and area is
measured by counting filled unit grid cells inside a finite window
(a cell is filled when its midpoint is inside; for the axis-aligned
integer geometry of the spec scenarios this count equals the exact
double-precision area the engine returns).
-/

namespace Boopy

/-- A point: an ordered pair of signed integers, as in
`polygon_traits<polygon_data<int>>::point_type`. -/
abbrev Pt := Int × Int

/-- A polygon: the ordered, implicitly-closed vertex list stored by
`polygon_data<int>`. -/
abbrev Poly := List Pt

/-- The `PolyGroup` state: the `ps_` vector of polygons. -/
abbrev PolyStore := List Poly

/-- The vertex-building loop of `addPolyData`: `npts = data.size()/2`
and `pts[i] = (data.at(2*i), data.at(2*i+1))` for `i < npts`, i.e. the
flat list is consumed two coordinates at a time and a trailing odd
coordinate is dropped. -/
def pairUp : List Int → List Pt
  | x :: y :: rest => (x, y) :: pairUp rest
  | _ => []

/-- The flattening loop of `getPoly`: for each vertex push `x` then
`y`. -/
def flatCoords : List Pt → List Int
  | [] => []
  | (x, y) :: rest => x :: y :: flatCoords rest

/-- `PolyGroup::addPolyData`: build the polygon from the flat data and
`push_back` it. -/
def addPolyData (g : PolyStore) (data : List Int) : PolyStore :=
  g ++ [pairUp data]

/-- `PolyGroup::getPolyCount`: `ps_.size()`. -/
def getPolyCount (g : PolyStore) : Nat := g.length

/-- `PolyGroup::getPoly`: if `n < ps_.size()` flatten the stored
polygon's vertices, otherwise return the empty sequence. -/
def getPoly (g : PolyStore) (n : Nat) : List Int :=
  match g[n]? with
  | some p => flatCoords p
  | none => []

/-- `PolyGroup::clear`: `gtl::clear(ps_)` empties the collection. -/
def clear (_ : PolyStore) : PolyStore := []

/-! ### Region semantics (modelled from the spec)

The boolean/area/emptiness operations call into boost.polygon, whose
code is not under `src/`.  Following the spec (§3, §4.3): a polygon
set denotes the region filled under the nonzero winding rule; we
sample that region on unit grid cells, testing each cell's midpoint.
Midpoints are kept integral by doubling all coordinates: cell `(i, j)`
has midpoint `(2*i+1, 2*j+1)` against vertices `(2*x, 2*y)`, so a
midpoint never lies on a doubled vertex's horizontal line. -/

/-- 2-D cross product, used for the side-of-edge test. -/
def cross (u v : Pt) : Int := u.1 * v.2 - u.2 * v.1

/-- Winding contribution of the directed edge `A → B` at the sample
point `P` (standard winding-number accumulation: upward edges strictly
left of `P` count `+1`, downward edges strictly right count `-1`). -/
def edgeWind (P A B : Pt) : Int :=
  if A.2 ≤ P.2 ∧ P.2 < B.2 then
    if 0 < cross (B.1 - A.1, B.2 - A.2) (P.1 - A.1, P.2 - A.2) then 1 else 0
  else if B.2 ≤ P.2 ∧ P.2 < A.2 then
    if cross (B.1 - A.1, B.2 - A.2) (P.1 - A.1, P.2 - A.2) < 0 then -1 else 0
  else 0

/-- The implicitly-closed edge list of a polygon: consecutive vertex
pairs plus the closing edge from the last vertex back to the first. -/
def edges (p : Poly) : List (Pt × Pt) := p.zip (p.rotate 1)

/-- Winding number of the (coordinate-doubled) polygon around the
midpoint of grid cell `c`. -/
def winding (p : Poly) (c : Pt) : Int :=
  ((edges p).map fun e =>
    edgeWind (2 * c.1 + 1, 2 * c.2 + 1)
      (2 * e.1.1, 2 * e.1.2) (2 * e.2.1, 2 * e.2.2)).sum

/-- A region is a predicate on grid cells. -/
abbrev Region := Pt → Bool

/-- Modelled from the spec: the region a polygon set denotes — a cell
is filled when the total winding number over all stored polygons is
nonzero (nonzero fill rule, §4.3). -/
def regionOf (g : PolyStore) : Region :=
  fun c => decide ((g.map fun p => winding p c).sum ≠ 0)

/-- Modelled from the spec: `union(A,B)` — area filled by A or B
(the engine behind `PolyGroup::merge`, `ps_ += pg2.ps_`). -/
def mergeR (a b : Region) : Region := fun p => a p || b p

/-- Modelled from the spec: `intersection(A,B)` — area filled by both
(the engine behind `PolyGroup::intersection`, `ps_ &= pg2.ps_`). -/
def interR (a b : Region) : Region := fun p => a p && b p

/-- Modelled from the spec: `difference(A,B)` — area filled by A and
not B (the engine behind `PolyGroup::difference`, `ps_ -= pg2.ps_`). -/
def differenceR (a b : Region) : Region := fun p => a p && !b p

/-- Modelled from the spec: `xor(A,B)` — area filled by exactly one of
A, B (the engine behind `PolyGroup::exor`, `ps_ ^= pg2.ps_`). -/
def exorR (a b : Region) : Region := fun p => (a p).xor (b p)

/-- Modelled from the spec: `normalize(A)` is `union(A,A)` (the engine
behind `PolyGroup::assign`, `gtl::assign(ps_, ps_)`). -/
def assignR (a : Region) : Region := mergeR a a

/-- Modelled from the spec: `area()` — net filled area, measured by
counting filled unit cells inside the finite window `W`. -/
def areaOn (W : Finset Pt) (r : Region) : Nat :=
  ∑ p ∈ W, if r p then 1 else 0

/-- Modelled from the spec: `empty()` — true iff the denoted region is
nowhere filled inside the window (emptiness is an area property, not a
count property). -/
def emptyOn (W : Finset Pt) (g : PolyStore) : Bool :=
  decide (∀ p ∈ W, regionOf g p = false)

/-! ### In-place operation structure and the offset engine -/

/-- Engine error kinds (spec §7). -/
inductive EngineError
  | invalidGeometry
  | invalidParameter
  | indexOutOfRange
deriving DecidableEq

/-- Modelled from the spec: the integer offsets within Euclidean
distance `d` of the origin — the grid-sampled disk swept by the
Minkowski offset. -/
def diskPts (d : Int) : Finset Pt :=
  (Finset.Icc (-d) d ×ˢ Finset.Icc (-d) d).filter
    fun q => q.1 * q.1 + q.2 * q.2 ≤ d * d

/-- Modelled from the spec: the Minkowski-style offset of a region by a
signed distance, sampled on the cell grid — positive distance grows
(dilation by the disk), negative shrinks (erosion by the disk).  Corner
arc filling only smooths convex corners and is not distinguished at
grid resolution. -/
def offsetRegion (r : Region) (d : Int) : Region :=
  if 0 ≤ d then
    fun p => decide (∃ q ∈ diskPts d, r (p.1 + q.1, p.2 + q.2))
  else
    fun p => decide (∀ q ∈ diskPts (-d), r (p.1 + q.1, p.2 + q.2))

/-- Modelled from the spec: `PolyGroup::resize` (`gtl::resize`) — fails
with `InvalidParameterError` when arc filling is requested with a zero
arc segment count, otherwise replaces the set with the offset
geometry. -/
def resize (r : Region) (d : Int) (cornerFillArc : Bool)
    (numCircleSegments : Nat) : Except EngineError Region :=
  if cornerFillArc && numCircleSegments == 0 then
    .error .invalidParameter
  else
    .ok (offsetRegion r d)

/-- Modelled from the spec: the in-place shape of `PolyGroup::difference`
(`ps_ -= pg2.ps_`) — the receiver's state becomes the boolean result
while the argument group's polygon collection is only read. -/
def differenceSt (A B : PolyStore) : Region × PolyStore :=
  (differenceR (regionOf A) (regionOf B), B)

/-- Modelled from the spec: the in-place shape of
`PolyGroup::intersection` (`ps_ &= pg2.ps_`). -/
def intersectionSt (A B : PolyStore) : Region × PolyStore :=
  (interR (regionOf A) (regionOf B), B)

/-- Modelled from the spec: the in-place shape of `PolyGroup::merge`
(`ps_ += pg2.ps_`). -/
def mergeSt (A B : PolyStore) : Region × PolyStore :=
  (mergeR (regionOf A) (regionOf B), B)

/-- Modelled from the spec: the in-place shape of `PolyGroup::exor`
(`ps_ ^= pg2.ps_`). -/
def exorSt (A B : PolyStore) : Region × PolyStore :=
  (exorR (regionOf A) (regionOf B), B)

/-! ### Helper lemmas on the flat-coordinate encoding -/

theorem pairUp_length (data : List Int) :
    (pairUp data).length = data.length / 2 := by
  induction data using pairUp.induct with
  | case1 x y rest ih => simp [pairUp, ih]; omega
  | case2 data h => cases data with
    | nil => rfl
    | cons x rest =>
        cases rest with
        | nil => simp [pairUp]
        | cons y r => exact absurd rfl (h x y r)

theorem flatCoords_pairUp (data : List Int) :
    flatCoords (pairUp data) = data.take (2 * (data.length / 2)) := by
  induction data using pairUp.induct with
  | case1 x y rest ih =>
      have h2 : 2 * ((rest.length + 2) / 2) = 2 * (rest.length / 2) + 2 := by
        omega
      simp [pairUp, flatCoords, ih, List.length_cons, h2, List.take_succ_cons]
  | case2 data h => cases data with
    | nil => rfl
    | cons x rest =>
        cases rest with
        | nil => simp [pairUp, flatCoords]
        | cons y r => exact absurd rfl (h x y r)

/-! ### Concrete scenario data (spec §8) -/

/-- Flat coordinates of square A: `(0,0),(10,0),(10,10),(0,10)`. -/
def dataA : List Int := [0, 0, 10, 0, 10, 10, 0, 10]

/-- Flat coordinates of square B: `(5,5),(15,5),(15,15),(5,15)`. -/
def dataB : List Int := [5, 5, 15, 5, 15, 15, 5, 15]

/-- A fresh set holding only square A. -/
def setA : PolyStore := addPolyData [] dataA

/-- A fresh set holding only square B. -/
def setB : PolyStore := addPolyData [] dataB

/-- A window of grid cells strictly covering the scenario geometry. -/
def winC1 : Finset Pt := Finset.Icc (-1 : Int) 16 ×ˢ Finset.Icc (-1 : Int) 16

/-- The degenerate two-vertex polygon `(0,0),(5,5)` traces a segment
back and forth, so its winding number is zero at every cell. -/
theorem winding_degenerate (c : Pt) :
    winding [((0 : Int), (0 : Int)), (5, 5)] c = 0 := by
  have hedges : edges [((0 : Int), (0 : Int)), (5, 5)] =
      [(((0 : Int), (0 : Int)), ((5 : Int), (5 : Int))),
       (((5 : Int), (5 : Int)), ((0 : Int), (0 : Int)))] := by decide
  obtain ⟨x, y⟩ := c
  rw [winding, hedges]
  simp only [List.map_cons, List.map_nil, List.sum_cons, List.sum_nil]
  simp only [edgeWind, cross]
  norm_num
  split_ifs <;> omega

/-! ### Claim theorems -/

/-- C10: for every flat integer sequence, `addPolyData` appends exactly
one polygon holding `⌊n/2⌋` vertices taken in order from the first
`2*⌊n/2⌋` elements, and the stored polygon count grows by one (no
input, odd-length or degenerate, is rejected). -/
theorem addPolyData_floor_pairs (g : PolyStore) (data : List Int) :
    addPolyData g data = g ++ [pairUp data] ∧
    (pairUp data).length = data.length / 2 ∧
    flatCoords (pairUp data) = data.take (2 * (data.length / 2)) ∧
    getPolyCount (addPolyData g data) = getPolyCount g + 1 :=
  ⟨rfl, pairUp_length data, flatCoords_pairUp data,
    by simp [getPolyCount, addPolyData]⟩

/-- C2 counterexample: on the odd-length input `[1,2,3]` the program
does not fail and does not leave the set unchanged — `addPolyData`
appends the polygon `[(1,2)]`. -/
theorem addPolyData_odd_counterexample :
    addPolyData [] [1, 2, 3] = [[((1 : Int), (2 : Int))]] ∧
    addPolyData [] [1, 2, 3] ≠ [] := by
  refine ⟨by decide, by decide⟩

/-- C2 (amended): an odd-length flat sequence is not rejected: the
trailing coordinate is silently discarded and a polygon built from the
first `length - 1` coordinates is appended, growing the count by one. -/
theorem addPolyData_odd_behavior (g : PolyStore) (data : List Int)
    (h : data.length % 2 = 1) :
    addPolyData g data = g ++ [pairUp data] ∧
    flatCoords (pairUp data) = data.take (data.length - 1) ∧
    getPolyCount (addPolyData g data) = getPolyCount g + 1 := by
  refine ⟨rfl, ?_, by simp [getPolyCount, addPolyData]⟩
  have h2 : 2 * (data.length / 2) = data.length - 1 := by omega
  rw [flatCoords_pairUp, h2]

/-- C2 witness: the amended behavior at the odd-length input `[1,2,3]`. -/
theorem addPolyData_odd_behavior_witness :
    ([1, 2, 3] : List Int).length % 2 = 1 ∧
    (addPolyData [] [1, 2, 3] = [] ++ [pairUp [1, 2, 3]] ∧
     flatCoords (pairUp [1, 2, 3]) =
       ([1, 2, 3] : List Int).take (([1, 2, 3] : List Int).length - 1) ∧
     getPolyCount (addPolyData [] [1, 2, 3]) = getPolyCount [] + 1) :=
  ⟨by decide, addPolyData_odd_behavior [] [1, 2, 3] (by decide)⟩

/-- C3: for every well-formed flat sequence (even length, at least 3
vertex pairs), `getPoly` at the index of the polygon just added returns
exactly the input sequence — in particular the same vertex cycle with
the same winding, rotated by zero. -/
theorem addPoly_getPoly_roundtrip (g : PolyStore) (data : List Int)
    (heven : data.length % 2 = 0) (hlen : 6 ≤ data.length) :
    getPoly (addPolyData g data) (getPolyCount g) = data ∧
    ∃ k, pairUp (getPoly (addPolyData g data) (getPolyCount g)) =
      (pairUp data).rotate k := by
  have hget : (g ++ [pairUp data])[g.length]? = some (pairUp data) := by
    simp
  have h1 : getPoly (addPolyData g data) (getPolyCount g) =
      flatCoords (pairUp data) := by
    simp [getPoly, addPolyData, getPolyCount, hget]
  have h2 : flatCoords (pairUp data) = data := by
    rw [flatCoords_pairUp]
    have he : 2 * (data.length / 2) = data.length := by omega
    rw [he, List.take_length]
  exact ⟨h1.trans h2, 0, by rw [h1, h2, List.rotate_zero]⟩

/-- C3 witness: round trip of the triangle `(0,0),(10,0),(10,10)`. -/
theorem addPoly_getPoly_roundtrip_witness :
    ([0, 0, 10, 0, 10, 10] : List Int).length % 2 = 0 ∧
    6 ≤ ([0, 0, 10, 0, 10, 10] : List Int).length ∧
    (getPoly (addPolyData [] [0, 0, 10, 0, 10, 10]) (getPolyCount []) =
       [0, 0, 10, 0, 10, 10] ∧
     ∃ k, pairUp (getPoly (addPolyData [] [0, 0, 10, 0, 10, 10])
       (getPolyCount [])) = (pairUp [0, 0, 10, 0, 10, 10]).rotate k) :=
  ⟨by decide, by decide,
    addPoly_getPoly_roundtrip [] [0, 0, 10, 0, 10, 10] (by decide) (by decide)⟩

/-- C6: `getPoly` returns the flat coordinates of the stored polygon
when the index is in range and the empty sequence (raising no error)
when it is out of range. -/
theorem getPoly_range_behavior (g : PolyStore) (n : Nat) :
    (∀ h : n < g.length, getPoly g n = flatCoords (g.get ⟨n, h⟩)) ∧
    (g.length ≤ n → getPoly g n = []) := by
  constructor
  · intro h
    simp [getPoly, List.getElem?_eq_getElem h]
  · intro h
    simp [getPoly, List.getElem?_eq_none h]

/-- C6 witness: a one-polygon store queried in range (index 0) and out
of range (index 3). -/
theorem getPoly_range_behavior_witness :
    getPoly [[((1 : Int), (2 : Int))]] 0 = [1, 2] ∧
    getPoly [[((1 : Int), (2 : Int))]] 3 = [] := by
  refine ⟨?_, ?_⟩
  · have h := (getPoly_range_behavior [[((1 : Int), (2 : Int))]] 0).1
      (by decide)
    simpa [flatCoords] using h
  · exact (getPoly_range_behavior [[((1 : Int), (2 : Int))]] 3).2 (by decide)

set_option maxRecDepth 200000 in
set_option maxHeartbeats 4000000 in
/-- C1: for the two concrete squares A and B, area(A) = 100,
area(B) = 100, and the intersection, union, difference and xor have
areas 25, 175, 75 and 150 respectively (cell count over a covering
window, which equals the exact area for this axis-aligned integer
geometry). -/
theorem squares_scenario_areas :
    areaOn winC1 (regionOf setA) = 100 ∧
    areaOn winC1 (regionOf setB) = 100 ∧
    areaOn winC1 (interR (regionOf setA) (regionOf setB)) = 25 ∧
    areaOn winC1 (mergeR (regionOf setA) (regionOf setB)) = 175 ∧
    areaOn winC1 (differenceR (regionOf setA) (regionOf setB)) = 75 ∧
    areaOn winC1 (exorR (regionOf setA) (regionOf setB)) = 150 := by
  decide

/-- C4: `normalize` is `union(A,A)`, and normalizing twice yields the
same area as normalizing once, over every window. -/
theorem assign_idempotent_area (W : Finset Pt) (g : PolyStore) :
    assignR (regionOf g) = mergeR (regionOf g) (regionOf g) ∧
    areaOn W (assignR (assignR (regionOf g))) =
      areaOn W (assignR (regionOf g)) := by
  refine ⟨rfl, ?_⟩
  simp [areaOn, assignR, mergeR]

/-- C5: for every pair of polygon sets, the xor area equals the union
area minus the intersection area, over every window. -/
theorem exor_area_law (W : Finset Pt) (a b : PolyStore) :
    (areaOn W (exorR (regionOf a) (regionOf b)) : Int) =
      (areaOn W (mergeR (regionOf a) (regionOf b)) : Int) -
      (areaOn W (interR (regionOf a) (regionOf b)) : Int) := by
  have key : areaOn W (exorR (regionOf a) (regionOf b)) +
      areaOn W (interR (regionOf a) (regionOf b)) =
      areaOn W (mergeR (regionOf a) (regionOf b)) := by
    unfold areaOn
    rw [← Finset.sum_add_distrib]
    refine Finset.sum_congr rfl fun p _ => ?_
    cases hA : regionOf a p <;> cases hB : regionOf b p <;>
      simp [exorR, interR, mergeR, hA, hB]
  omega

/-- C7: emptiness is an area property: `empty` holds iff the
fill-rule area is zero; a fresh set, a cleared set and a set holding
only a degenerate two-vertex polygon (count 1) all report empty. -/
theorem empty_iff_zero_area (W : Finset Pt) (g : PolyStore) :
    (emptyOn W g = true ↔ areaOn W (regionOf g) = 0) ∧
    emptyOn W (clear g) = true ∧
    emptyOn W [] = true ∧
    emptyOn W (addPolyData [] [0, 0, 5, 5]) = true ∧
    getPolyCount (addPolyData [] [0, 0, 5, 5]) = 1 := by
  have hiff : ∀ h : PolyStore,
      (emptyOn W h = true ↔ areaOn W (regionOf h) = 0) := by
    intro h
    rw [emptyOn, decide_eq_true_iff, areaOn, Finset.sum_eq_zero_iff]
    constructor
    · intro hall p hp
      rw [hall p hp]
      rfl
    · intro hall p hp
      have := hall p hp
      cases hr : regionOf h p
      · rfl
      · rw [hr] at this
        simp at this
  have hdeg : emptyOn W (addPolyData [] [0, 0, 5, 5]) = true := by
    have hs : addPolyData [] [0, 0, 5, 5] =
        [[((0 : Int), (0 : Int)), (5, 5)]] := by decide
    rw [hs, emptyOn, decide_eq_true_iff]
    intro p _
    simp only [regionOf, List.map_cons, List.map_nil, List.sum_cons,
      List.sum_nil, winding_degenerate p, add_zero]
    decide
  refine ⟨hiff g, ?_, ?_, hdeg, by decide⟩
  · simp [emptyOn, clear, regionOf]
  · simp [emptyOn, regionOf]

/-- C8: `resize` fails with `InvalidParameterError` whenever arc corner
filling is requested with arc segment count 0, and succeeds — replacing
the set with the offset geometry — whenever the count is at least 1. -/
theorem resize_arc_segment_check (r : Region) (d : Int) (b : Bool)
    (n : Nat) (h : 1 ≤ n) :
    resize r d true 0 = .error .invalidParameter ∧
    resize r d b n = .ok (offsetRegion r d) := by
  constructor
  · rfl
  · have hn : (n == 0) = false := by
      simp
      omega
    simp [resize, hn]

/-- C8 witness: resizing square A by distance 3 with arc filling fails
at segment count 0 and succeeds at segment count 8. -/
theorem resize_arc_segment_check_witness :
    1 ≤ 8 ∧
    (resize (regionOf setA) 3 true 0 = .error .invalidParameter ∧
     resize (regionOf setA) 3 true 8 = .ok (offsetRegion (regionOf setA) 3)) :=
  ⟨by decide, resize_arc_segment_check (regionOf setA) 3 true 8 (by decide)⟩

/-- C9: each in-place boolean operation mutates only the receiver; the
argument group's polygon collection is returned unchanged. -/
theorem boolean_ops_preserve_argument (A B : PolyStore) :
    (differenceSt A B).2 = B ∧ (intersectionSt A B).2 = B ∧
    (mergeSt A B).2 = B ∧ (exorSt A B).2 = B :=
  ⟨rfl, rfl, rfl, rfl⟩

end Boopy
